import Mathlib

/-!
Verification of the swift-syntax-tblgen generator
(src/lib/Syntax/TableGen/swift-syntax-tblgen.cpp).

The generator walks tablegen node records and emits, per node, a handle
interface (cursor enumeration, accessor and updater signatures, classof),
a wrapper-data implementation (constructor assertions, make, makeBlank),
and accessor/updater bodies.  We embed the schema data the generator
reads and each emitter as a function producing a structured record of
exactly the pieces of text the C++ interpolates; fixed template text is
represented by the constructors themselves.
-/

namespace Swift

/-- Target of a child (Layout-typed) slot, as the generator reads it off
the layout def.  A token target carries the record type name (result of
getLayoutNodeType), the Kind and Spelling string fields and whether the
type is a subclass of Identifier; a node target carries the type name and
the superclass list used for category resolution (getSyntaxCategory). -/
inductive SlotTarget where
  | token (tyName kind spelling : String) (identLike : Bool)
  | node (tyName : String) (supers : List String)
deriving DecidableEq

/-- One field of a tablegen node record.  isLayoutTy mirrors
isLayout(Child.getType()); fieldTypeName mirrors
Child.getType()->getAsString(); fieldTypeIsTokenClass mirrors the
interface generator's check ChildType->getRecord() == Token class. -/
structure Field where
  name : String
  isLayoutTy : Bool
  fieldTypeName : String
  fieldTypeIsTokenClass : Bool
  target : SlotTarget
deriving DecidableEq

/-- A tablegen node record: name, the full superclass list (in
getSuperClasses() order) and the declared fields in declaration order. -/
structure NodeRec where
  name : String
  supers : List String
  fields : List Field
deriving DecidableEq

/-- Mirrors isToken on the layout node type. -/
def isToken : SlotTarget → Bool
  | .token .. => true
  | .node .. => false

/-- Mirrors isIdentifier on the layout node type. -/
def isIdentifier : SlotTarget → Bool
  | .token _ _ _ il => il
  | .node .. => false

/-- Mirrors getLayoutNodeType(...)->getAsString(). -/
def targetTypeName : SlotTarget → String
  | .token ty _ _ _ => ty
  | .node ty _ => ty

/-- The categories registered in SyntaxTableGenMain via
SyntaxCategories.insert. -/
def registeredCategories : List String :=
  ["Decl", "Stmt", "Expr", "Type", "Pattern", "Token", "SyntaxCollection"]

/-- Mirrors getSyntaxCategory: the first superclass of the def that is a
registered syntax category, if any. -/
def syntaxCategoryOf (supers : List String) : Option String :=
  supers.find? (fun s => registeredCategories.contains s)

/-- Mirrors getMissingSyntaxKind: resolve the layout node's category
(Optional::getValue asserts on None, modelled as none) and feed it to the
StringSwitch with the six Missing cases (falling off the end of the
StringSwitch asserts, modelled as none). -/
def getMissingSyntaxKind (supers : List String) : Option String :=
  match syntaxCategoryOf supers with
  | none => none
  | some c =>
    if c = "Decl" then some "MissingDecl"
    else if c = "Expr" then some "MissingExpr"
    else if c = "Stmt" then some "MissingStmt"
    else if c = "Type" then some "MissingType"
    else if c = "Pattern" then some "MissingPattern"
    else if c = "SyntaxCollection" then some "MissingSyntaxCollection"
    else none

/-- Mirrors getChildrenOf: the Layout-typed fields in declaration order. -/
def getChildrenOf (n : NodeRec) : List Field :=
  n.fields.filter (fun f => f.isLayoutTy)

/-- An emitted token assertion: either a kind-only assert (identifier
branch) or a combined syntax_assert_token_is with kind and spelling. -/
inductive TokAssert where
  | kindOnly (varName kind : String)
  | kindAndSpelling (varName kind spelling : String)
deriving DecidableEq

/-- Mirrors printTokenAssertion, which is only invoked on token-typed
layout slots: the identifier branch emits a kind-only assert, the other
branch emits syntax_assert_token_is with the kind and the spelling. -/
def printTokenAssertion (varName kind spelling : String) (identLike : Bool) : TokAssert :=
  if identLike then .kindOnly varName kind
  else .kindAndSpelling varName kind spelling

/-- The token kind literal an emitted token assertion checks. -/
def TokAssert.kindOf : TokAssert → String
  | .kindOnly _ k => k
  | .kindAndSpelling _ k _ => k

/-- The spelling literal an emitted token assertion checks, if any. -/
def TokAssert.spellingOf : TokAssert → Option String
  | .kindOnly _ _ => none
  | .kindAndSpelling _ _ s => some s

/-- One assertion emitted into the wrapper-data constructor body. -/
inductive CtorAssert where
  | rawKind (kind : String)
  | layoutSize (n : Nat)
  | tok (a : TokAssert)
  | childKind (childVar typeName : String)
deriving DecidableEq

/-- The child variable text used in the constructor assertions. -/
def childVarName (childName : String) : String :=
  "Raw->getChild(Cursor::" ++ childName ++ ")"

/-- The per-child assertion emitted by the constructor loop of
printSyntaxDataImplementation. -/
def ctorChildAssert (f : Field) : CtorAssert :=
  match f.target with
  | .token _ k s il => .tok (printTokenAssertion (childVarName f.name) k s il)
  | .node ty _ => .childKind (childVarName f.name) ty

/-- The full assertion list emitted into the wrapper-data constructor:
the raw-kind assert, the layout-size assert with the literal
getChildrenOf(Node).size(), then one assertion per layout child. -/
def ctorEmission (n : NodeRec) : List CtorAssert :=
  .rawKind n.name :: .layoutSize (getChildrenOf n).length ::
    (getChildrenOf n).map ctorChildAssert

/-- One child expression emitted into the makeBlank initializer list. -/
inductive BlankChild where
  | missingTok (kind spelling : String)
  | missingNode (missingKind : String)
deriving DecidableEq

/-- The placeholder emitted for one layout child in makeBlank: a token
child becomes TokenSyntax::missingToken(tok::Kind, Spelling); any other
child becomes RawSyntax::missing(SyntaxKind::getMissingSyntaxKind(...)),
where a failed category/table lookup aborts the generator (none). -/
def blankChild (f : Field) : Option BlankChild :=
  match f.target with
  | .token _ k s _ => some (.missingTok k s)
  | .node _ sup => (getMissingSyntaxKind sup).map BlankChild.missingNode

/-- Sequential Option-valued map, mirroring the emission loop that
aborts at the first failing child. -/
def mapOpt {α β : Type} (g : α → Option β) : List α → Option (List β)
  | [] => some []
  | a :: t => (g a).bind (fun b => (mapOpt g t).map (fun bs => b :: bs))

/-- The structured content of the emitted makeBlank body:
make(RawSyntax::make(SyntaxKind::kind, { children }, presence)).
viaMake records that the raw node is passed through make. -/
structure BlankEmit where
  viaMake : Bool
  wrapperKind : String
  children : List BlankChild
  presence : String
deriving DecidableEq

/-- Mirrors the makeBlank part of printSyntaxDataImplementation. -/
def makeBlankBody (n : NodeRec) : Option BlankEmit :=
  (mapOpt blankChild (getChildrenOf n)).map
    (fun ys => { viaMake := true, wrapperKind := n.name, children := ys, presence := "Present" })

/-- One statement of the emitted accessor body, in emission order,
carrying exactly the names the C++ template interpolates. -/
inductive GetterStmt where
  | signature (returnTy className childName : String)
  | readRawChild (cursorName : String)
  | returnNoneIfMissing
  | bindUnsafeData (className : String)
  | atomicChildPtr (cachedName : String)
  | realizeChild (tyName cursorName : String)
  | returnConstructed (className cachedName : String)
deriving DecidableEq

/-- The accessor body emitted by printSyntaxImplementation for one
layout child: declared return type llvm::Optional of the child type,
read the raw child at the slot cursor, return llvm::None when missing,
then realize the child atomically under the current data node at the
slot cursor, and finally a return statement constructing className. -/
def getterBody (className : String) (f : Field) : List GetterStmt :=
  [ .signature ("llvm::Optional<" ++ targetTypeName f.target ++ ">") className f.name,
    .readRawChild f.name,
    .returnNoneIfMissing,
    .bindUnsafeData className,
    .atomicChildPtr f.name,
    .realizeChild (targetTypeName f.target) f.name,
    .returnConstructed className f.name ]

/-- The structured content of an emitted updater body. -/
structure SetterEmission where
  className : String
  childName : String
  paramTypeName : String
  tokenRevalidation : Option TokAssert
  replaceArgIsRaw : Bool
  replaceTemplateClass : String
  replaceCursor : String
deriving DecidableEq

/-- The updater emitted by printSyntaxImplementation for one layout
child: token slots re-validate the argument New(name) via
printTokenAssertion and pass it to replaceChild directly; node slots
pass New(name)->getRaw(); both go through
Data->replaceChild(className)(..., Cursor::name). -/
def setterEmission (className : String) (f : Field) : SetterEmission :=
  match f.target with
  | .token ty k s il =>
    { className := className
      childName := f.name
      paramTypeName := ty
      tokenRevalidation := some (printTokenAssertion ("New" ++ f.name) k s il)
      replaceArgIsRaw := false
      replaceTemplateClass := className
      replaceCursor := f.name }
  | .node ty _ =>
    { className := className
      childName := f.name
      paramTypeName := ty
      tokenRevalidation := none
      replaceArgIsRaw := true
      replaceTemplateClass := className
      replaceCursor := f.name }

/-- Mirrors printSyntaxImplementation: for each layout child of the node,
in order, a getter body and a setter, emitted on the class named by the
node's own name (Kind). -/
def printSyntaxImplementation (n : NodeRec) : List (List GetterStmt × SetterEmission) :=
  (getChildrenOf n).map (fun f => (getterBody n.name f, setterEmission n.name f))

/-- An emitted accessor signature in the handle interface. -/
structure AccessorSig where
  childName : String
  returnTypeName : String
deriving DecidableEq

/-- An emitted updater signature in the handle interface. -/
structure UpdaterSig where
  childName : String
  paramTypeName : String
  returnTypeName : String
deriving DecidableEq

/-- The structured content of one emitted handle interface. -/
structure InterfaceEmission where
  nodeName : String
  className : String
  superclassName : String
  cursorEntries : List String
  accessors : List AccessorSig
  updaters : List UpdaterSig
  classofKind : String
deriving DecidableEq

/-- Mirrors printSyntaxInterface: class (name)Syntax with one cursor
enumerator per layout child in order, per child a getter returning
llvm::Optional of the field type name + Syntax and an updater taking the
field type (RC-wrapped when the field type is exactly the Token class)
and returning the node's own handle class, plus classof comparing
S->getKind() to SyntaxKind::(name)Syntax. -/
def printSyntaxInterface (n : NodeRec) : InterfaceEmission :=
  { nodeName := n.name
    className := n.name ++ "Syntax"
    superclassName := (n.supers.getLastD "") ++ "Syntax"
    cursorEntries := (getChildrenOf n).map Field.name
    accessors := (getChildrenOf n).map (fun f =>
      { childName := f.name
        returnTypeName := "llvm::Optional<" ++ f.fieldTypeName ++ "Syntax>" })
    updaters := (getChildrenOf n).map (fun f =>
      { childName := f.name
        paramTypeName :=
          if f.fieldTypeIsTokenClass then "RC<" ++ f.fieldTypeName ++ "Syntax>"
          else f.fieldTypeName ++ "Syntax"
        returnTypeName := n.name ++ "Syntax" })
    classofKind := n.name ++ "Syntax" }

/-- Mirrors RecordKeeper::getAllDerivedDefinitions for a class name. -/
def getAllDerivedDefinitions (schema : List NodeRec) (cat : String) : List NodeRec :=
  schema.filter (fun n => n.supers.contains cat)

/-- The loop body shared textually by printSyntaxInterfaces: emit each
node's interface, skipping the node whose name is the Any umbrella. -/
def emitInterfaceList (any : String) : List NodeRec → List InterfaceEmission
  | [] => []
  | n :: t =>
    if n.name = any then emitInterfaceList any t
    else printSyntaxInterface n :: emitInterfaceList any t

/-- Mirrors printSyntaxInterfaces. -/
def printSyntaxInterfaces (schema : List NodeRec) (cat : String) : List InterfaceEmission :=
  emitInterfaceList ("Any" ++ cat) (getAllDerivedDefinitions schema cat)

/-- The structured content emitted for one node by
printSyntaxImplementations: member bodies, the wrapper-data constructor
assertions and the makeBlank body. -/
structure ImplEmission where
  nodeName : String
  members : List (List GetterStmt × SetterEmission)
  ctorAsserts : List CtorAssert
  blank : Option BlankEmit
deriving DecidableEq

/-- Everything printSyntaxImplementations emits for one node. -/
def implEmissionOf (n : NodeRec) : ImplEmission :=
  { nodeName := n.name
    members := printSyntaxImplementation n
    ctorAsserts := ctorEmission n
    blank := makeBlankBody n }

/-- The loop body of printSyntaxImplementations: emit each node's
implementation, skipping the node whose name is the Any umbrella. -/
def emitImplList (any : String) : List NodeRec → List ImplEmission
  | [] => []
  | n :: t =>
    if n.name = any then emitImplList any t
    else implEmissionOf n :: emitImplList any t

/-- Mirrors printSyntaxImplementations. -/
def printSyntaxImplementations (schema : List NodeRec) (cat : String) : List ImplEmission :=
  emitImplList ("Any" ++ cat) (getAllDerivedDefinitions schema cat)

/-- The Category enum of the tool. -/
inductive Category where
  | unknown
  | decl
  | stmt
  | expr
  | type
  | pattern
  | factory
  | rewriter
deriving DecidableEq

/-- Mirrors getCategory: the StringSwitch over the category option with
Default Unknown. -/
def getCategory (s : String) : Category :=
  if s = "Decl" then .decl
  else if s = "Expr" then .expr
  else if s = "Stmt" then .stmt
  else if s = "Type" then .type
  else if s = "Pattern" then .pattern
  else if s = "SyntaxFactory" then .factory
  else if s = "SyntaxRewriter" then .rewriter
  else .unknown

/-- The single output document of one generator run. -/
inductive GenDoc where
  | interfaces (items : List InterfaceEmission)
  | implementations (items : List ImplEmission)
  | empty
deriving DecidableEq

/-- Mirrors genInterface: the five tree categories emit the interfaces,
SyntaxFactory and SyntaxRewriter dispatch to the TODO stubs which write
nothing and report success, Unknown is llvm_unreachable (none).  The
Bool is the returned error flag. -/
def genInterface (schema : List NodeRec) (cat : String) : Option (Bool × GenDoc) :=
  match getCategory cat with
  | .decl | .expr | .stmt | .type | .pattern =>
      some (false, .interfaces (printSyntaxInterfaces schema cat))
  | .factory => some (false, .empty)
  | .rewriter => some (false, .empty)
  | .unknown => none

/-- Mirrors genImplementation, analogously. -/
def genImplementation (schema : List NodeRec) (cat : String) : Option (Bool × GenDoc) :=
  match getCategory cat with
  | .decl | .expr | .stmt | .type | .pattern =>
      some (false, .implementations (printSyntaxImplementations schema cat))
  | .factory => some (false, .empty)
  | .rewriter => some (false, .empty)
  | .unknown => none

/-- The ActionType enum of the tool. -/
inductive ActionType where
  | None
  | GenImplementation
  | GenInterface
deriving DecidableEq

/-- What one call of the SyntaxTableGenMain callback did: the returned
error flag, the document written to OS, and whether it wrote a
diagnostic and the help message. -/
structure TGMainStep where
  failed : Bool
  doc : GenDoc
  errDiag : Bool
  usagePrinted : Bool
deriving DecidableEq

/-- Mirrors SyntaxTableGenMain: a missing action prints a diagnostic to
errs plus the help message and returns true; otherwise it dispatches to
genInterface or genImplementation. -/
def syntaxTableGenMain (schema : List NodeRec) (cat : String) (action : ActionType) :
    Option TGMainStep :=
  match action with
  | .None => some { failed := true, doc := .empty, errDiag := true, usagePrinted := true }
  | .GenInterface =>
      (genInterface schema cat).map
        (fun p => { failed := p.1, doc := p.2, errDiag := false, usagePrinted := false })
  | .GenImplementation =>
      (genImplementation schema cat).map
        (fun p => { failed := p.1, doc := p.2, errDiag := false, usagePrinted := false })

/-- Observable outcome of one whole process run. -/
structure RunResult where
  exitCode : Nat
  errDiag : Bool
  usagePrinted : Bool
  outputKept : Option GenDoc
deriving DecidableEq

/-- Models the surrounding llvm TableGenMain contract: when the callback
reports failure the process exits nonzero and the output document is
discarded; on success the document is kept and the exit code is zero. -/
def tableGenMainWith (step : Option TGMainStep) : Option RunResult :=
  step.map (fun r =>
    if r.failed then
      { exitCode := 1, errDiag := r.errDiag, usagePrinted := r.usagePrinted, outputKept := none }
    else
      { exitCode := 0, errDiag := r.errDiag, usagePrinted := r.usagePrinted,
        outputKept := some r.doc })

/-- Mirrors main: an unknown category is rejected up front with a
diagnostic on errs plus the help message and exit code 1, before any
output exists; otherwise the run proceeds through TableGenMain with the
SyntaxTableGenMain callback. -/
def runMain (schema : List NodeRec) (cat : String) (action : ActionType) : Option RunResult :=
  if getCategory cat = .unknown then
    some { exitCode := 1, errDiag := true, usagePrinted := true, outputKept := none }
  else
    tableGenMainWith (syntaxTableGenMain schema cat action)

/-! Concrete schema values used by the witnesses, following the IfStmt
scenario of the specification. -/

/-- The NAME metadata field tablegen inserts; not Layout-typed. -/
def nameMetaField : Field :=
  { name := "NAME", isLayoutTy := false, fieldTypeName := "string",
    fieldTypeIsTokenClass := false, target := .node "" [] }

/-- A closed-spelling keyword token slot. -/
def ifKeywordField : Field :=
  { name := "IfKeyword", isLayoutTy := true, fieldTypeName := "Token",
    fieldTypeIsTokenClass := true, target := .token "Token" "kw_if" "if" false }

/-- An Expr-typed child slot. -/
def conditionField : Field :=
  { name := "Condition", isLayoutTy := true, fieldTypeName := "Expr",
    fieldTypeIsTokenClass := false, target := .node "Expr" ["Expr"] }

/-- A Stmt-typed child slot. -/
def bodyField : Field :=
  { name := "Body", isLayoutTy := true, fieldTypeName := "Stmt",
    fieldTypeIsTokenClass := false, target := .node "Stmt" ["Stmt"] }

/-- An identifier-like token slot. -/
def labelNameField : Field :=
  { name := "LabelName", isLayoutTy := true, fieldTypeName := "Identifier",
    fieldTypeIsTokenClass := false, target := .token "Identifier" "identifier" "" true }

/-- The IfStmt node of the specification's concrete scenario. -/
def ifStmtNode : NodeRec :=
  { name := "IfStmt", supers := ["Stmt"],
    fields := [nameMetaField, ifKeywordField, conditionField, bodyField] }

/-- A labelled statement node carrying an identifier-like token slot. -/
def labeledStmtNode : NodeRec :=
  { name := "LabeledStmt", supers := ["Stmt"],
    fields := [nameMetaField, labelNameField, bodyField] }

/-- The umbrella definition of the Stmt category. -/
def anyStmtNode : NodeRec :=
  { name := "AnyStmt", supers := ["Stmt"], fields := [nameMetaField] }

/-- A small schema holding the Stmt category. -/
def demoSchema : List NodeRec := [ifStmtNode, labeledStmtNode, anyStmtNode]

/-! Helper lemmas. -/

theorem getElem?_cons_cons {α : Type} (x y : α) (l : List α) (i : Nat) :
    (x :: y :: l)[i + 2]? = l[i]? := by
  have h : i + 2 = (i + 1) + 1 := rfl
  rw [h, List.getElem?_cons_succ, List.getElem?_cons_succ]

theorem mapOpt_cons_eq_some {α β : Type} {g : α → Option β} {a : α} {t : List α}
    {ys : List β} :
    mapOpt g (a :: t) = some ys ↔
      ∃ b ys', g a = some b ∧ mapOpt g t = some ys' ∧ ys = b :: ys' := by
  simp only [mapOpt, Option.bind_eq_some, Option.map_eq_some']
  constructor
  · rintro ⟨b, hb, ys', hys', rfl⟩
    exact ⟨b, ys', hb, hys', rfl⟩
  · rintro ⟨b, ys', hb, hys', rfl⟩
    exact ⟨b, hb, ys', hys', rfl⟩

theorem mapOpt_length {α β : Type} (g : α → Option β) :
    ∀ (l : List α) (ys : List β), mapOpt g l = some ys → ys.length = l.length := by
  intro l
  induction l with
  | nil =>
    intro ys h
    simp only [mapOpt, Option.some.injEq] at h
    subst h
    rfl
  | cons a t ih =>
    intro ys h
    obtain ⟨b, ys', _, hys', rfl⟩ := mapOpt_cons_eq_some.mp h
    simp [ih ys' hys']

theorem mapOpt_getElem {α β : Type} (g : α → Option β) :
    ∀ (l : List α) (ys : List β), mapOpt g l = some ys →
      ∀ i : Nat, ys[i]? = (l[i]?).bind g := by
  intro l
  induction l with
  | nil =>
    intro ys h i
    simp only [mapOpt, Option.some.injEq] at h
    subst h
    simp
  | cons a t ih =>
    intro ys h i
    obtain ⟨b, ys', hb, hys', rfl⟩ := mapOpt_cons_eq_some.mp h
    cases i with
    | zero => simp [hb]
    | succ j => simp [List.getElem?_cons_succ, ih ys' hys' j]

theorem mapOpt_total {α β : Type} (g : α → Option β) :
    ∀ l : List α, (∀ a ∈ l, (g a).isSome = true) → ∃ ys, mapOpt g l = some ys := by
  intro l
  induction l with
  | nil =>
    intro _
    exact ⟨[], rfl⟩
  | cons a t ih =>
    intro h
    obtain ⟨b, hb⟩ := Option.isSome_iff_exists.mp (h a (List.mem_cons_self a t))
    obtain ⟨ys', hys'⟩ := ih (fun x hx => h x (List.mem_cons_of_mem a hx))
    exact ⟨b :: ys', by simp [mapOpt, hb, hys']⟩

theorem emitInterfaceList_eq (any : String) :
    ∀ l : List NodeRec,
      emitInterfaceList any l =
        (l.filter (fun n => !(n.name == any))).map printSyntaxInterface := by
  intro l
  induction l with
  | nil => rfl
  | cons a t ih =>
    by_cases ha : a.name = any
    · simp [emitInterfaceList, ha, List.filter_cons, ih]
    · simp [emitInterfaceList, ha, List.filter_cons, ih]

theorem emitImplList_eq (any : String) :
    ∀ l : List NodeRec,
      emitImplList any l =
        (l.filter (fun n => !(n.name == any))).map implEmissionOf := by
  intro l
  induction l with
  | nil => rfl
  | cons a t ih =>
    by_cases ha : a.name = any
    · simp [emitImplList, ha, List.filter_cons, ih]
    · simp [emitImplList, ha, List.filter_cons, ih]

theorem getCategory_unknown_iff (cat : String) :
    getCategory cat = Category.unknown ↔
      ¬ cat ∈ (["Decl", "Expr", "Stmt", "Type", "Pattern", "SyntaxFactory",
                 "SyntaxRewriter"] : List String) := by
  unfold getCategory
  split_ifs with h1 h2 h3 h4 h5 h6 h7 <;> simp_all

/-! Claim theorems. -/

/-- Claim C7: the arity literal emitted in the constructor's child-count
assertion equals the number of resolved child slots (the Layout-typed
fields in declaration order), which equals the number of entries emitted
in the node's cursor enumeration. -/
theorem arity_three_way_agreement (n : NodeRec) :
    (ctorEmission n)[1]? = some (CtorAssert.layoutSize (getChildrenOf n).length) ∧
    (printSyntaxInterface n).cursorEntries.length = (getChildrenOf n).length ∧
    getChildrenOf n = n.fields.filter (fun f => f.isLayoutTy) := by
  refine ⟨by simp [ctorEmission], ?_, rfl⟩
  simp [printSyntaxInterface]

/-- Claim C2: the emitted wrapper constructor body asserts that the raw
node's kind equals the node's declared kind, that the raw layout size
equals the number of declared child slots, and, per child slot at the
slot's cursor, the token-kind constraint (with exact spelling whenever
the constraint requires one) for token slots, or the target type's kind
for node-typed slots. -/
theorem ctor_emits_shape_assertions (n : NodeRec) :
    (ctorEmission n)[0]? = some (CtorAssert.rawKind n.name) ∧
    (ctorEmission n)[1]? = some (CtorAssert.layoutSize (getChildrenOf n).length) ∧
    (ctorEmission n).length = (getChildrenOf n).length + 2 ∧
    ∀ i f, (getChildrenOf n)[i]? = some f →
      (∀ ty k s, f.target = SlotTarget.token ty k s true →
          (ctorEmission n)[i + 2]? =
            some (CtorAssert.tok (TokAssert.kindOnly (childVarName f.name) k))) ∧
      (∀ ty k s, f.target = SlotTarget.token ty k s false →
          (ctorEmission n)[i + 2]? =
            some (CtorAssert.tok
              (TokAssert.kindAndSpelling (childVarName f.name) k s))) ∧
      (∀ ty sup, f.target = SlotTarget.node ty sup →
          (ctorEmission n)[i + 2]? =
            some (CtorAssert.childKind (childVarName f.name) ty)) := by
  refine ⟨by simp [ctorEmission], by simp [ctorEmission], by simp [ctorEmission], ?_⟩
  intro i f hf
  have hidx : (ctorEmission n)[i + 2]? = some (ctorChildAssert f) := by
    unfold ctorEmission
    rw [getElem?_cons_cons, List.getElem?_map, hf]
    rfl
  refine ⟨?_, ?_, ?_⟩
  · intro ty k s ht
    rw [hidx]
    unfold ctorChildAssert
    rw [ht]
    rfl
  · intro ty k s ht
    rw [hidx]
    unfold ctorChildAssert
    rw [ht]
    rfl
  · intro ty sup ht
    rw [hidx]
    unfold ctorChildAssert
    rw [ht]

/-- Witness for ctor_emits_shape_assertions at the IfStmt scenario. -/
theorem ctor_shape_assertions_at_ifStmt :
    (ctorEmission ifStmtNode)[0]? = some (CtorAssert.rawKind "IfStmt") ∧
    (ctorEmission ifStmtNode)[1]? = some (CtorAssert.layoutSize 3) ∧
    (ctorEmission ifStmtNode)[2]? =
      some (CtorAssert.tok
        (TokAssert.kindAndSpelling "Raw->getChild(Cursor::IfKeyword)" "kw_if" "if")) ∧
    (ctorEmission ifStmtNode)[3]? =
      some (CtorAssert.childKind "Raw->getChild(Cursor::Condition)" "Expr") := by
  obtain ⟨h0, h1, hlen, hpt⟩ := ctor_emits_shape_assertions ifStmtNode
  refine ⟨h0, h1, ?_, ?_⟩
  · exact (hpt 0 ifKeywordField rfl).2.1 "Token" "kw_if" "if" rfl
  · exact (hpt 1 conditionField rfl).2.2 "Expr" ["Expr"] rfl

/-- Claim C6: the emitted token assertion always checks the kind literal
and checks the exact spelling literal if and only if the token's type is
not identifier-like, and this is the assertion wired into both the
constructor's child check and the updater's re-validation. -/
theorem token_assertion_spelling_iff_closed :
    (∀ v k s : String, ∀ il : Bool,
        (printTokenAssertion v k s il).kindOf = k ∧
        ((printTokenAssertion v k s il).spellingOf = some s ↔ il = false)) ∧
    (∀ (cls : String) (f : Field) (ty k s : String) (il : Bool),
        f.target = SlotTarget.token ty k s il →
        ctorChildAssert f =
          CtorAssert.tok (printTokenAssertion (childVarName f.name) k s il) ∧
        (setterEmission cls f).tokenRevalidation =
          some (printTokenAssertion ("New" ++ f.name) k s il)) := by
  constructor
  · intro v k s il
    cases il <;> simp [printTokenAssertion, TokAssert.kindOf, TokAssert.spellingOf]
  · intro cls f ty k s il ht
    unfold ctorChildAssert setterEmission
    rw [ht]
    exact ⟨rfl, rfl⟩

/-- Witness for token_assertion_spelling_iff_closed on a closed-spelling
keyword slot and an identifier-like slot. -/
theorem token_assertion_at_examples :
    ctorChildAssert ifKeywordField =
      CtorAssert.tok
        (TokAssert.kindAndSpelling "Raw->getChild(Cursor::IfKeyword)" "kw_if" "if") ∧
    (setterEmission "LabeledStmt" labelNameField).tokenRevalidation =
      some (TokAssert.kindOnly "NewLabelName" "identifier") := by
  obtain ⟨hproj, hwire⟩ := token_assertion_spelling_iff_closed
  exact ⟨(hwire "IfStmt" ifKeywordField "Token" "kw_if" "if" false rfl).1,
         (hwire "LabeledStmt" labelNameField "Identifier" "identifier" "" true rfl).2⟩

/-- Claim C3 evidence: for the IfStmt scenario's Condition slot the
emitted accessor declares return type llvm::Optional<Expr> and realizes
the cached child at type Expr, but its final return statement constructs
a value of the enclosing class IfStmt, not of the slot's declared child
type Expr. -/
theorem getter_return_type_mismatch :
    ((printSyntaxImplementation ifStmtNode)[1]?).map Prod.fst =
      some (getterBody "IfStmt" conditionField) ∧
    (getterBody "IfStmt" conditionField)[0]? =
      some (GetterStmt.signature "llvm::Optional<Expr>" "IfStmt" "Condition") ∧
    (getterBody "IfStmt" conditionField)[5]? =
      some (GetterStmt.realizeChild "Expr" "Condition") ∧
    (getterBody "IfStmt" conditionField)[6]? =
      some (GetterStmt.returnConstructed "IfStmt" "Condition") ∧
    "IfStmt" ≠ "Expr" := by
  refine ⟨?_, ?_, ?_, ?_, ?_⟩ <;> decide

/-- Claim C1: for every node all of whose slots admit a placeholder, the
emitted makeBlank body wraps via make a raw node of the node's own kind,
with presence Present, whose children are, in exact slot order, a
missing token carrying the slot's declared kind and spelling for token
slots and the missing-placeholder kind of the slot's resolved category
for node-typed slots; the resolved placeholder kinds follow the fixed
table Decl→MissingDecl, Expr→MissingExpr, Stmt→MissingStmt,
Type→MissingType, Pattern→MissingPattern,
SyntaxCollection→MissingSyntaxCollection. -/
theorem makeBlank_emits_missing_placeholders (n : NodeRec)
    (h : ∀ f ∈ getChildrenOf n, (blankChild f).isSome = true) :
    (∃ ys, makeBlankBody n =
        some { viaMake := true, wrapperKind := n.name, children := ys,
               presence := "Present" } ∧
      ys.length = (getChildrenOf n).length ∧
      ∀ (i : Nat) (f : Field), (getChildrenOf n)[i]? = some f →
        (∀ ty k s il, f.target = SlotTarget.token ty k s il →
            ys[i]? = some (BlankChild.missingTok k s)) ∧
        (∀ ty sup mk, f.target = SlotTarget.node ty sup →
            getMissingSyntaxKind sup = some mk →
            ys[i]? = some (BlankChild.missingNode mk))) ∧
    (∀ sup c, syntaxCategoryOf sup = some c →
        (c = "Decl" → getMissingSyntaxKind sup = some "MissingDecl") ∧
        (c = "Expr" → getMissingSyntaxKind sup = some "MissingExpr") ∧
        (c = "Stmt" → getMissingSyntaxKind sup = some "MissingStmt") ∧
        (c = "Type" → getMissingSyntaxKind sup = some "MissingType") ∧
        (c = "Pattern" → getMissingSyntaxKind sup = some "MissingPattern") ∧
        (c = "SyntaxCollection" →
            getMissingSyntaxKind sup = some "MissingSyntaxCollection")) := by
  constructor
  · obtain ⟨ys, hys⟩ := mapOpt_total blankChild (getChildrenOf n) h
    refine ⟨ys, ?_, mapOpt_length blankChild _ _ hys, ?_⟩
    · unfold makeBlankBody
      rw [hys]
      rfl
    · intro i f hf
      have hyi : ys[i]? = blankChild f := by
        rw [mapOpt_getElem blankChild _ _ hys i, hf]
        rfl
      constructor
      · intro ty k s il ht
        rw [hyi]
        unfold blankChild
        rw [ht]
      · intro ty sup mk ht hmk
        rw [hyi]
        unfold blankChild
        rw [ht]
        rw [show (match SlotTarget.node ty sup with
              | SlotTarget.token _ k s _ => some (BlankChild.missingTok k s)
              | SlotTarget.node _ sup =>
                  (getMissingSyntaxKind sup).map BlankChild.missingNode) =
            (getMissingSyntaxKind sup).map BlankChild.missingNode from rfl]
        rw [hmk]
        rfl
  · intro sup c hc
    refine ⟨?_, ?_, ?_, ?_, ?_, ?_⟩ <;>
      (intro h'; subst h'; unfold getMissingSyntaxKind; rw [hc]; decide)

/-- Witness for makeBlank_emits_missing_placeholders at the IfStmt
scenario: a missing kw_if token with spelling if, then MissingExpr, then
MissingStmt, wrapped via make. -/
theorem makeBlank_placeholders_at_ifStmt :
    makeBlankBody ifStmtNode =
      some { viaMake := true, wrapperKind := "IfStmt",
             children := [BlankChild.missingTok "kw_if" "if",
                          BlankChild.missingNode "MissingExpr",
                          BlankChild.missingNode "MissingStmt"],
             presence := "Present" } := by
  obtain ⟨⟨ys, hmk, hlen, hpt⟩, htab⟩ :=
    makeBlank_emits_missing_placeholders ifStmtNode (by decide)
  have e0 := (hpt 0 ifKeywordField rfl).1 "Token" "kw_if" "if" false rfl
  have e1 := (hpt 1 conditionField rfl).2 "Expr" ["Expr"] "MissingExpr" rfl rfl
  have e2 := (hpt 2 bodyField rfl).2 "Stmt" ["Stmt"] "MissingStmt" rfl rfl
  have hlen3 : ys.length = 3 := by rw [hlen]; rfl
  have hys : ys = [BlankChild.missingTok "kw_if" "if",
                   BlankChild.missingNode "MissingExpr",
                   BlankChild.missingNode "MissingStmt"] := by
    apply List.ext_getElem?
    intro i
    match i with
    | 0 => exact e0
    | 1 => exact e1
    | 2 => exact e2
    | (j + 3) =>
      rw [List.getElem?_eq_none (by omega), List.getElem?_eq_none (by simp)]
  rw [hmk, hys]
  rfl

/-- Claim C4: each emitted updater re-validates a token replacement
against the slot's constraint (kind, and spelling when the constraint
requires one) and then replaces at the slot's cursor with the token
itself, while node-typed slots replace with the replacement handle's raw
subtree; both go through replaceChild instantiated at the node's own
class. -/
theorem updater_revalidates_and_replaces (n : NodeRec) (i : Nat) (f : Field)
    (hf : (getChildrenOf n)[i]? = some f) :
    ((printSyntaxImplementation n)[i]?).map Prod.snd = some (setterEmission n.name f) ∧
    (setterEmission n.name f).replaceTemplateClass = n.name ∧
    (setterEmission n.name f).replaceCursor = f.name ∧
    (∀ ty k s il, f.target = SlotTarget.token ty k s il →
        (setterEmission n.name f).tokenRevalidation =
          some (printTokenAssertion ("New" ++ f.name) k s il) ∧
        (setterEmission n.name f).replaceArgIsRaw = false) ∧
    (∀ ty sup, f.target = SlotTarget.node ty sup →
        (setterEmission n.name f).tokenRevalidation = none ∧
        (setterEmission n.name f).replaceArgIsRaw = true) := by
  have hmem : ((printSyntaxImplementation n)[i]?).map Prod.snd =
      some (setterEmission n.name f) := by
    unfold printSyntaxImplementation
    rw [List.getElem?_map, hf]
    rfl
  rcases f with ⟨nm, lay, ftn, ftc, tgt⟩
  cases tgt with
  | token ty k s il =>
    refine ⟨hmem, rfl, rfl, ?_, ?_⟩
    · intro ty' k' s' il' ht
      injection ht with h1 h2 h3 h4
      subst h2
      subst h3
      subst h4
      exact ⟨rfl, rfl⟩
    · intro ty' sup' ht
      exact SlotTarget.noConfusion ht
  | node ty sup =>
    refine ⟨hmem, rfl, rfl, ?_, ?_⟩
    · intro ty' k' s' il' ht
      exact SlotTarget.noConfusion ht
    · intro ty' sup' ht
      exact ⟨rfl, rfl⟩

/-- Witness for updater_revalidates_and_replaces at the IfStmt keyword
slot and the IfStmt condition slot. -/
theorem updater_contract_at_ifStmt :
    ((printSyntaxImplementation ifStmtNode)[0]?).map Prod.snd =
      some (setterEmission "IfStmt" ifKeywordField) ∧
    (setterEmission "IfStmt" ifKeywordField).tokenRevalidation =
      some (TokAssert.kindAndSpelling "NewIfKeyword" "kw_if" "if") ∧
    (setterEmission "IfStmt" ifKeywordField).replaceArgIsRaw = false ∧
    (setterEmission "IfStmt" conditionField).tokenRevalidation = none ∧
    (setterEmission "IfStmt" conditionField).replaceArgIsRaw = true := by
  obtain ⟨hmem, hcls, hcur, htok, hnode⟩ :=
    updater_revalidates_and_replaces ifStmtNode 0 ifKeywordField rfl
  obtain ⟨hmem', hcls', hcur', htok', hnode'⟩ :=
    updater_revalidates_and_replaces ifStmtNode 1 conditionField rfl
  have h := htok "Token" "kw_if" "if" false rfl
  have h' := hnode' "Expr" ["Expr"] rfl
  exact ⟨hmem, h.1, h.2, h'.1, h'.2⟩

/-- Claim C5: the interface generator emits a handle interface exactly
for the derived definitions of the requested category other than the Any
umbrella; each emitted interface lists each slot name as a cursor entry
in slot order, and per slot one accessor signature returning an optional
child value and one updater signature taking the slot's declared type
and returning the node's own handle type, plus a classof predicate
comparing the runtime kind tag to this node's kind. -/
theorem interface_emission_contract (schema : List NodeRec) (cat : String) :
    (∀ e, e ∈ printSyntaxInterfaces schema cat ↔
        ∃ n, n ∈ getAllDerivedDefinitions schema cat ∧ ¬ n.name = "Any" ++ cat ∧
          e = printSyntaxInterface n) ∧
    (∀ n : NodeRec,
        (printSyntaxInterface n).nodeName = n.name ∧
        (printSyntaxInterface n).classofKind = n.name ++ "Syntax" ∧
        (printSyntaxInterface n).cursorEntries = (getChildrenOf n).map Field.name ∧
        (printSyntaxInterface n).accessors.length = (getChildrenOf n).length ∧
        (printSyntaxInterface n).updaters.length = (getChildrenOf n).length ∧
        ∀ (i : Nat) (f : Field), (getChildrenOf n)[i]? = some f →
          (printSyntaxInterface n).accessors[i]? =
            some { childName := f.name,
                   returnTypeName :=
                     "llvm::Optional<" ++ f.fieldTypeName ++ "Syntax>" } ∧
          (printSyntaxInterface n).updaters[i]? =
            some { childName := f.name,
                   paramTypeName :=
                     if f.fieldTypeIsTokenClass then "RC<" ++ f.fieldTypeName ++ "Syntax>"
                     else f.fieldTypeName ++ "Syntax",
                   returnTypeName := n.name ++ "Syntax" }) := by
  constructor
  · intro e
    unfold printSyntaxInterfaces
    rw [emitInterfaceList_eq]
    simp only [List.mem_map, List.mem_filter, Bool.not_eq_eq_eq_not, Bool.not_true,
      beq_eq_false_iff_ne, ne_eq]
    constructor
    · rintro ⟨n, ⟨hn, hne⟩, rfl⟩
      exact ⟨n, hn, hne, rfl⟩
    · rintro ⟨n, hn, hne, rfl⟩
      exact ⟨n, ⟨hn, hne⟩, rfl⟩
  · intro n
    refine ⟨rfl, rfl, rfl, by simp [printSyntaxInterface], by simp [printSyntaxInterface], ?_⟩
    intro i f hf
    constructor
    · show ((getChildrenOf n).map _)[i]? = _
      rw [List.getElem?_map, hf]
      rfl
    · show ((getChildrenOf n).map _)[i]? = _
      rw [List.getElem?_map, hf]
      rfl

/-- Witness for interface_emission_contract on the demo Stmt schema. -/
theorem interface_contract_at_demo :
    printSyntaxInterface ifStmtNode ∈ printSyntaxInterfaces demoSchema "Stmt" ∧
    (printSyntaxInterface ifStmtNode).cursorEntries = ["IfKeyword", "Condition", "Body"] ∧
    (printSyntaxInterface ifStmtNode).classofKind = "IfStmtSyntax" ∧
    (printSyntaxInterface ifStmtNode).accessors[0]? =
      some { childName := "IfKeyword", returnTypeName := "llvm::Optional<TokenSyntax>" } ∧
    (printSyntaxInterface ifStmtNode).updaters[0]? =
      some { childName := "IfKeyword", paramTypeName := "RC<TokenSyntax>",
             returnTypeName := "IfStmtSyntax" } := by
  obtain ⟨hmem, hnode⟩ := interface_emission_contract demoSchema "Stmt"
  obtain ⟨h1, h2, h3, h4, h5, h6⟩ := hnode ifStmtNode
  have h7 := h6 0 ifKeywordField rfl
  refine ⟨?_, ?_, ?_, ?_, ?_⟩
  · exact (hmem (printSyntaxInterface ifStmtNode)).mpr
      ⟨ifStmtNode, by decide, by decide, rfl⟩
  · exact h3.trans (by decide)
  · exact h2.trans (by decide)
  · exact h7.1.trans (by decide)
  · exact h7.2.trans (by decide)

/-- Claim C8: a missing action, or a category name outside the
recognized set, makes the run print a diagnostic and the usage text,
exit with a nonzero status, and keep no output document. -/
theorem bad_invocation_rejected (schema : List NodeRec) (cat : String)
    (action : ActionType)
    (h : action = ActionType.None ∨
         ¬ cat ∈ (["Decl", "Expr", "Stmt", "Type", "Pattern", "SyntaxFactory",
                    "SyntaxRewriter"] : List String)) :
    runMain schema cat action =
      some { exitCode := 1, errDiag := true, usagePrinted := true,
             outputKept := none } := by
  rcases h with rfl | hcat
  · by_cases hc : getCategory cat = Category.unknown
    · unfold runMain
      rw [if_pos hc]
    · unfold runMain
      rw [if_neg hc]
      rfl
  · have hc : getCategory cat = Category.unknown := (getCategory_unknown_iff cat).mpr hcat
    unfold runMain
    rw [if_pos hc]

/-- Witness for bad_invocation_rejected with an unrecognized category
and with a missing action. -/
theorem bad_invocation_at_examples :
    runMain demoSchema "Statement" ActionType.GenInterface =
      some { exitCode := 1, errDiag := true, usagePrinted := true,
             outputKept := none } ∧
    runMain demoSchema "Stmt" ActionType.None =
      some { exitCode := 1, errDiag := true, usagePrinted := true,
             outputKept := none } := by
  constructor
  · exact bad_invocation_rejected demoSchema "Statement" ActionType.GenInterface
      (Or.inr (by decide))
  · exact bad_invocation_rejected demoSchema "Stmt" ActionType.None (Or.inl rfl)

/-- Claim C9: the categories SyntaxFactory and SyntaxRewriter are
accepted as valid by both the interface and the implementation action:
the run succeeds with exit code zero, prints no diagnostics, and the
kept output document is the empty stub document, so nothing is generated
beyond the stubbed-out placeholder state. -/
theorem stub_category_accepted_empty (schema : List NodeRec) (cat : String)
    (action : ActionType)
    (hc : cat = "SyntaxFactory" ∨ cat = "SyntaxRewriter")
    (ha : action = ActionType.GenInterface ∨ action = ActionType.GenImplementation) :
    runMain schema cat action =
      some { exitCode := 0, errDiag := false, usagePrinted := false,
             outputKept := some GenDoc.empty } := by
  rcases hc with rfl | rfl <;> rcases ha with rfl | rfl <;> rfl

/-- Witness for stub_category_accepted_empty at SyntaxFactory with the
interface action. -/
theorem stub_category_at_factory :
    runMain demoSchema "SyntaxFactory" ActionType.GenInterface =
      some { exitCode := 0, errDiag := false, usagePrinted := false,
             outputKept := some GenDoc.empty } :=
  stub_category_accepted_empty demoSchema "SyntaxFactory" ActionType.GenInterface
    (Or.inl rfl) (Or.inl rfl)

/-- Claim C10: for every tree category, the interface generator and the
implementation generator enumerate exactly the same node definitions —
all derived definitions of the category except the Any umbrella, in the
same order — so a node receives an emitted declaration if and only if it
receives an emitted definition. -/
theorem interface_impl_enumerate_same_nodes (schema : List NodeRec) (cat : String)
    (h : getCategory cat = Category.decl ∨ getCategory cat = Category.expr ∨
         getCategory cat = Category.stmt ∨ getCategory cat = Category.type ∨
         getCategory cat = Category.pattern) :
    genInterface schema cat =
      some (false, GenDoc.interfaces (printSyntaxInterfaces schema cat)) ∧
    genImplementation schema cat =
      some (false, GenDoc.implementations (printSyntaxImplementations schema cat)) ∧
    (printSyntaxInterfaces schema cat).map InterfaceEmission.nodeName =
      (printSyntaxImplementations schema cat).map ImplEmission.nodeName ∧
    (printSyntaxInterfaces schema cat).map InterfaceEmission.nodeName =
      ((getAllDerivedDefinitions schema cat).filter
          (fun n => !(n.name == "Any" ++ cat))).map NodeRec.name := by
  have hi : printSyntaxInterfaces schema cat =
      ((getAllDerivedDefinitions schema cat).filter
          (fun n => !(n.name == "Any" ++ cat))).map printSyntaxInterface :=
    emitInterfaceList_eq _ _
  have hm : printSyntaxImplementations schema cat =
      ((getAllDerivedDefinitions schema cat).filter
          (fun n => !(n.name == "Any" ++ cat))).map implEmissionOf :=
    emitImplList_eq _ _
  refine ⟨?_, ?_, ?_, ?_⟩
  · unfold genInterface
    rcases h with hc | hc | hc | hc | hc <;> rw [hc]
  · unfold genImplementation
    rcases h with hc | hc | hc | hc | hc <;> rw [hc]
  · rw [hi, hm, List.map_map, List.map_map]
    rfl
  · rw [hi, List.map_map]
    rfl

/-- Witness for interface_impl_enumerate_same_nodes on the demo Stmt
schema: both generators enumerate IfStmt and LabeledStmt and skip the
AnyStmt umbrella. -/
theorem same_nodes_at_demo :
    genInterface demoSchema "Stmt" =
      some (false, GenDoc.interfaces (printSyntaxInterfaces demoSchema "Stmt")) ∧
    (printSyntaxInterfaces demoSchema "Stmt").map InterfaceEmission.nodeName =
      (printSyntaxImplementations demoSchema "Stmt").map ImplEmission.nodeName ∧
    (printSyntaxInterfaces demoSchema "Stmt").map InterfaceEmission.nodeName =
      ["IfStmt", "LabeledStmt"] := by
  obtain ⟨h1, h2, h3, h4⟩ :=
    interface_impl_enumerate_same_nodes demoSchema "Stmt"
      (Or.inr (Or.inr (Or.inl rfl)))
  exact ⟨h1, h3, h4.trans (by decide)⟩

end Swift
